import Mathlib

/-!
Verification of the KiotProxy Manager fleet-lifecycle core against its
natural-language specification.  The definitions below are a shallow
embedding of the Python source under `backend/app/`:

* `ProxyKey` mirrors the persisted record of `models.py`; the flat JSON
  store `data["proxy_keys"]` is modelled as a `List ProxyKey`.
* Timestamps are modelled as `Int` epoch seconds; the provider reports
  expiration in epoch milliseconds, converted by integer division by 1000
  (the source converts via float division and ISO strings, which agree at
  whole-second granularity).
* Fallible Python code that raises is modelled with `Except String`.
-/

namespace KiotProxyManager

/-- Mirrors `models.ProxyKey` (models.py lines 73-92): one persisted fleet
entry.  The pydantic string timestamps are modelled as `Int` epoch seconds,
optional fields as `Option`. -/
structure ProxyKey where
  id : Nat
  user_id : Nat
  key_name : String
  kiotproxy_key : String
  subdomain : String
  port : Nat
  region : String
  is_active : Bool
  remote_http : Option String
  remote_ip : Option String
  location : Option String
  status : String
  latency_ms : Option Nat
  last_check_at : Option Int
  expiration_at : Option Int
  ttl : Option Int
  ttc : Option Int
  last_rotated_at : Option Int
  created_at : Int
deriving DecidableEq

/-- Mirrors `database.get_all_proxies`-style scans restricted to the active
flag: `database.get_active_proxies` (database.py lines 133-140) keeps the
records whose `is_active` field is truthy. -/
def get_active_proxies (db : List ProxyKey) : List ProxyKey :=
  db.filter (fun p => p.is_active)

/-- Mirrors `database.add_proxy` (database.py lines 152-157): appends the
new record to the persisted list. -/
def add_proxy (p : ProxyKey) (db : List ProxyKey) : List ProxyKey :=
  db ++ [p]

/-- Mirrors `database.update_proxy` (database.py lines 160-167): replaces
the first record whose `id` matches and leaves the rest untouched (the
Python loop breaks after the first hit). -/
def update_proxy (p : ProxyKey) : List ProxyKey → List ProxyKey
  | [] => []
  | q :: rest => if q.id == p.id then p :: rest else q :: update_proxy p rest

/-- Mirrors `database.delete_proxy` (database.py lines 170-174): keeps every
record whose `id` differs from the deleted one. -/
def delete_proxy (proxy_id : Nat) (db : List ProxyKey) : List ProxyKey :=
  db.filter (fun p => p.id != proxy_id)

/-- Mirrors `database.get_next_proxy_id` (database.py lines 177-182):
returns 1 on an empty store, otherwise `max(ids) + 1`. -/
def get_next_proxy_id (db : List ProxyKey) : Nat :=
  match db with
  | [] => 1
  | _ => (db.map (fun p => p.id)).foldl Nat.max 0 + 1

/-- Mirrors `database.get_next_subdomain` (database.py lines 185-193): scans
the labels `proxy1 .. proxy999` in order and returns the first one not used
by ANY persisted record; the Python `raise Exception("No available
subdomains")` on exhaustion (the spec's `ResourceExhausted`) is modelled as
`Except.error`. -/
def get_next_subdomain (db : List ProxyKey) : Except String String :=
  match (List.range' 1 999).find?
      (fun i => !(db.map (fun p => p.subdomain)).contains ("proxy" ++ toString i)) with
  | some i => Except.ok ("proxy" ++ toString i)
  | none => Except.error "No available subdomains"

/-- Mirrors `database.get_next_port` (database.py lines 196-204): scans the
window `port_start .. port_start+99` and returns the first port not used by
ANY persisted record; exhaustion (`raise Exception("No available ports")`,
the spec's `ResourceExhausted`) is modelled as `Except.error`. -/
def get_next_port (port_start : Nat) (db : List ProxyKey) : Except String Nat :=
  match (List.range' port_start 100).find?
      (fun p => !(db.map (fun q => q.port)).contains p) with
  | some p => Except.ok p
  | none => Except.error "No available ports"

/-! ### Helper lemmas about the allocators -/

theorem get_next_port_ok {port_start : Nat} {db : List ProxyKey} {v : Nat}
    (h : get_next_port port_start db = Except.ok v) :
    ∀ q ∈ db, q.port ≠ v := by
  unfold get_next_port at h
  cases hf : (List.range' port_start 100).find?
      (fun p => !(db.map (fun q => q.port)).contains p) with
  | none => rw [hf] at h; exact absurd h (by simp)
  | some w =>
    rw [hf] at h
    simp only [Except.ok.injEq] at h
    have hp := List.find?_some hf
    have hnot : ¬ w ∈ db.map (fun q => q.port) := by simpa using hp
    intro q hq hqv
    exact hnot (List.mem_map.mpr ⟨q, hq, by rw [hqv, h]⟩)

theorem get_next_subdomain_ok {db : List ProxyKey} {s : String}
    (h : get_next_subdomain db = Except.ok s) :
    ∀ q ∈ db, q.subdomain ≠ s := by
  unfold get_next_subdomain at h
  cases hf : (List.range' 1 999).find?
      (fun i => !(db.map (fun q => q.subdomain)).contains ("proxy" ++ toString i)) with
  | none => rw [hf] at h; exact absurd h (by simp)
  | some i =>
    rw [hf] at h
    simp only [Except.ok.injEq] at h
    subst h
    have hp := List.find?_some hf
    have hnot : ¬ ("proxy" ++ toString i) ∈ db.map (fun q => q.subdomain) := by
      simpa using hp
    intro q hq hqs
    exact hnot (List.mem_map.mpr ⟨q, hq, hqs⟩)

theorem get_next_port_exhausted {port_start : Nat} {db : List ProxyKey}
    (h : (List.range' port_start 100).all
      (fun v => (db.map (fun q => q.port)).contains v) = true) :
    get_next_port port_start db = Except.error "No available ports" := by
  unfold get_next_port
  cases hf : (List.range' port_start 100).find?
      (fun p => !(db.map (fun q => q.port)).contains p) with
  | none => rfl
  | some w =>
    have hmem := List.mem_of_find?_eq_some hf
    have hp := List.find?_some hf
    have hall := List.all_eq_true.mp h w hmem
    rw [hall] at hp
    simp at hp

theorem get_next_subdomain_exhausted {db : List ProxyKey}
    (h : (List.range' 1 999).all
      (fun i => (db.map (fun q => q.subdomain)).contains ("proxy" ++ toString i)) = true) :
    get_next_subdomain db = Except.error "No available subdomains" := by
  unfold get_next_subdomain
  cases hf : (List.range' 1 999).find?
      (fun i => !(db.map (fun q => q.subdomain)).contains ("proxy" ++ toString i)) with
  | none => rfl
  | some i =>
    have hmem := List.mem_of_find?_eq_some hf
    have hp := List.find?_some hf
    have hall := List.all_eq_true.mp h i hmem
    rw [hall] at hp
    simp at hp

/-- Every list member's image is contained in the mapped list; used to
discharge the exhaustion hypotheses on concrete full databases. -/
theorem all_contains_map_self {α β : Type} [DecidableEq β] (l : List α) (f : α → β) :
    l.all (fun a => (l.map f).contains (f a)) = true := by
  rw [List.all_eq_true]
  intro a ha
  simpa using List.mem_map.mpr ⟨a, ha, rfl⟩

/-! ### C5: allocators avoid active entries and fail on exhaustion -/

/-- C5: `next_port()` and `next_subdomain()` never return a value held by an
active entry (they skip values held by ANY persisted record, hence in
particular by active ones), and when the whole 100-port window
`port_start..port_start+99`, resp. all 999 labels `proxy1..proxy999`, is
taken they fail with the resource-exhaustion error (`Except.error`, the
source's `raise Exception(...)`, the spec's `ResourceExhausted`) instead of
returning a duplicate. -/
theorem allocators_avoid_active_and_exhaust (db : List ProxyKey) (port_start : Nat) :
    (∀ v, get_next_port port_start db = Except.ok v →
      ∀ q ∈ db, q.is_active = true → q.port ≠ v)
    ∧ (∀ s, get_next_subdomain db = Except.ok s →
      ∀ q ∈ db, q.is_active = true → q.subdomain ≠ s)
    ∧ ((List.range' port_start 100).all
        (fun v => (db.map (fun q => q.port)).contains v) = true →
      get_next_port port_start db = Except.error "No available ports")
    ∧ ((List.range' 1 999).all
        (fun i => (db.map (fun q => q.subdomain)).contains ("proxy" ++ toString i)) = true →
      get_next_subdomain db = Except.error "No available subdomains") := by
  refine ⟨?_, ?_, ?_, ?_⟩
  · intro v hv q hq _
    exact get_next_port_ok hv q hq
  · intro s hs q hq _
    exact get_next_subdomain_ok hs q hq
  · exact get_next_port_exhausted
  · exact get_next_subdomain_exhausted

/-- A minimal persisted record used to build concrete databases in the
witnesses below. -/
def baseEntry : ProxyKey :=
  { id := 1, user_id := 1, key_name := "VN-1", kiotproxy_key := "k1"
    subdomain := "proxy1", port := 9000, region := "random", is_active := true
    remote_http := some "1.2.3.4:8080", remote_ip := some "1.2.3.4"
    location := some "VN", status := "active", latency_ms := none
    last_check_at := none, expiration_at := none, ttl := some 60, ttc := some 5
    last_rotated_at := some 0, created_at := 0 }

/-- A database occupying the whole port window 9000..9099. -/
def fullPortDB : List ProxyKey :=
  (List.range' 9000 100).map (fun v => { baseEntry with id := v, port := v })

/-- A database occupying all 999 subdomain labels. -/
def fullSubdomainDB : List ProxyKey :=
  (List.range' 1 999).map
    (fun i => { baseEntry with id := i, subdomain := "proxy" ++ toString i })

theorem allocators_avoid_active_and_exhaust_witness :
    get_next_port 9000 [baseEntry] = Except.ok 9001
    ∧ (∀ q ∈ [baseEntry], q.is_active = true → q.port ≠ 9001)
    ∧ get_next_port 9000 fullPortDB = Except.error "No available ports"
    ∧ get_next_subdomain fullSubdomainDB = Except.error "No available subdomains" := by
  have h := allocators_avoid_active_and_exhaust [baseEntry] 9000
  have hfull := allocators_avoid_active_and_exhaust fullPortDB 9000
  have hsub := allocators_avoid_active_and_exhaust fullSubdomainDB 9000
  refine ⟨rfl, h.1 9001 rfl, ?_, ?_⟩
  · refine hfull.2.2.1 ?_
    simp only [fullPortDB, List.map_map, Function.comp]
    simp
  · refine hsub.2.2.2 ?_
    have := all_contains_map_self (List.range' 1 999)
      (fun i => ({ baseEntry with id := i, subdomain := "proxy" ++ toString i } : ProxyKey).subdomain)
    simpa [fullSubdomainDB, List.map_map, Function.comp] using this

/-! ### C10: the allocators scan every record, active or not -/

/-- C10: `get_next_port` and `get_next_subdomain` scan every persisted
record regardless of `is_active`, so an allocated value is never held by ANY
entry — in particular not by a soft-deleted (`is_active = false`) one — and
a window fully occupied by inactive entries still exhausts. -/
theorem allocators_scan_inactive_entries (db : List ProxyKey) (port_start : Nat) :
    (∀ v, get_next_port port_start db = Except.ok v → ∀ q ∈ db, q.port ≠ v)
    ∧ (∀ s, get_next_subdomain db = Except.ok s → ∀ q ∈ db, q.subdomain ≠ s)
    ∧ (db.all (fun q => !q.is_active) = true →
      (List.range' port_start 100).all
        (fun v => (db.map (fun q => q.port)).contains v) = true →
      get_next_port port_start db = Except.error "No available ports") := by
  refine ⟨?_, ?_, ?_⟩
  · intro v hv
    exact get_next_port_ok hv
  · intro s hs
    exact get_next_subdomain_ok hs
  · intro _ hall
    exact get_next_port_exhausted hall

/-- An inactive (soft-deleted) variant of `baseEntry`. -/
def inactiveEntry : ProxyKey :=
  { baseEntry with is_active := false }

/-- A database of inactive entries occupying the whole port window. -/
def fullInactivePortDB : List ProxyKey :=
  (List.range' 9000 100).map
    (fun v => { inactiveEntry with id := v, port := v })

theorem allocators_scan_inactive_entries_witness :
    get_next_port 9000 [inactiveEntry] = Except.ok 9001
    ∧ (∀ q ∈ [inactiveEntry], q.port ≠ 9001)
    ∧ get_next_subdomain [inactiveEntry] = Except.ok "proxy2"
    ∧ (∀ q ∈ [inactiveEntry], q.subdomain ≠ "proxy2")
    ∧ get_next_port 9000 fullInactivePortDB = Except.error "No available ports" := by
  have h1 := allocators_scan_inactive_entries [inactiveEntry] 9000
  have h2 := allocators_scan_inactive_entries fullInactivePortDB 9000
  refine ⟨rfl, h1.1 9001 rfl, rfl, h1.2.1 "proxy2" rfl, ?_⟩
  refine h2.2.2 (by decide) ?_
  simp only [fullInactivePortDB, List.map_map, Function.comp]
  simp

/-! ### C6: next id allocation, and reuse of deleted ids -/

/-- C6 (amended): `get_next_proxy_id` returns 1 on an empty store; on a
non-empty store it returns a value strictly greater than every persisted id
and equal to some persisted id plus one (i.e. max + 1).  Consequently an id
`d` of a deleted entry is not reallocated as long as some remaining entry
still has an id ≥ `d`.  (The unconditional "no reuse of deleted ids" of the
original claim is false: deleting the maximum-id entry makes its id the next
one handed out — see the counterexample.) -/
theorem le_foldl_max (l : List Nat) (a : Nat) : a ≤ l.foldl Nat.max a := by
  induction l generalizing a with
  | nil => exact le_rfl
  | cons b t ih =>
    exact le_trans (Nat.le_max_left a b) (ih (Nat.max a b))

theorem mem_le_foldl_max (l : List Nat) (a : Nat) :
    ∀ x ∈ l, x ≤ l.foldl Nat.max a := by
  induction l generalizing a with
  | nil => intro x hx; cases hx
  | cons b t ih =>
    intro x hx
    cases hx with
    | head => exact le_trans (Nat.le_max_right a b) (le_foldl_max t (Nat.max a b))
    | tail _ hx => exact ih (Nat.max a b) x hx

theorem foldl_max_eq_init_or_mem (l : List Nat) (a : Nat) :
    l.foldl Nat.max a = a ∨ l.foldl Nat.max a ∈ l := by
  induction l generalizing a with
  | nil => exact Or.inl rfl
  | cons b t ih =>
    cases ih (Nat.max a b) with
    | inl h =>
      cases Nat.le_total a b with
      | inl hab =>
        refine Or.inr ?_
        show List.foldl Nat.max (Nat.max a b) t ∈ b :: t
        rw [h]
        have hm : Nat.max a b = b := by
          show max a b = b
          exact max_eq_right hab
        rw [hm]
        exact List.mem_cons_self b t
      | inr hab =>
        refine Or.inl ?_
        show List.foldl Nat.max (Nat.max a b) t = a
        rw [h]
        show max a b = a
        exact max_eq_left hab
    | inr h => exact Or.inr (List.mem_cons_of_mem b h)

theorem next_id_allocation (db : List ProxyKey) (d : Nat) :
    (db = [] → get_next_proxy_id db = 1)
    ∧ (∀ q ∈ db, q.id < get_next_proxy_id db)
    ∧ (db ≠ [] → ∃ q ∈ db, get_next_proxy_id db = q.id + 1)
    ∧ ((∃ q ∈ db, d ≤ q.id) → get_next_proxy_id db ≠ d) := by
  have hle : ∀ q ∈ db, q.id ≤ (db.map (fun p => p.id)).foldl Nat.max 0 := by
    intro q hq
    exact mem_le_foldl_max _ 0 q.id (List.mem_map.mpr ⟨q, hq, rfl⟩)
  have hlt : ∀ q ∈ db, q.id < get_next_proxy_id db := by
    intro q hq
    cases db with
    | nil => cases hq
    | cons a l =>
      exact Nat.lt_succ_of_le (hle q hq)
  refine ⟨?_, hlt, ?_, ?_⟩
  · intro h; subst h; rfl
  · intro hne
    cases db with
    | nil => exact absurd rfl hne
    | cons a l =>
      cases foldl_max_eq_init_or_mem ((a :: l).map (fun p => p.id)) 0 with
      | inr hm =>
        obtain ⟨q, hq, hqe⟩ := List.mem_map.mp hm
        exact ⟨q, hq, by simp [get_next_proxy_id, hqe]⟩
      | inl hz =>
        refine ⟨a, List.mem_cons_self a l, ?_⟩
        have ha := hle a (List.mem_cons_self a l)
        rw [hz] at ha
        have ha0 : a.id = 0 := Nat.le_zero.mp ha
        show ((a :: l).map (fun p => p.id)).foldl Nat.max 0 + 1 = a.id + 1
        rw [hz, ha0]
  · rintro ⟨q, hq, hdq⟩
    have := hlt q hq
    omega

/-- Two concrete entries with ids 1 and 2. -/
def entryOne : ProxyKey := { baseEntry with id := 1 }

/-- Entry with id 2 (occupying a second port/subdomain). -/
def entryTwo : ProxyKey := { baseEntry with id := 2, port := 9001, subdomain := "proxy2" }

/-- C6 counterexample: id 2 is allocated (held by `entryTwo`), the entry is
then deleted, and `get_next_proxy_id` hands the id 2 out again — deleted ids
ARE reused when the deleted entry held the maximum id. -/
theorem next_id_reuse_counterexample :
    entryTwo.id = 2
    ∧ entryTwo ∈ [entryOne, entryTwo]
    ∧ get_next_proxy_id (delete_proxy 2 [entryOne, entryTwo]) = 2 := by
  refine ⟨rfl, by decide, rfl⟩

theorem next_id_allocation_witness :
    get_next_proxy_id [] = 1
    ∧ (∀ q ∈ [entryOne, entryTwo], q.id < get_next_proxy_id [entryOne, entryTwo])
    ∧ (∃ q ∈ [entryOne, entryTwo], get_next_proxy_id [entryOne, entryTwo] = q.id + 1)
    ∧ get_next_proxy_id [entryOne, entryTwo] ≠ 2 := by
  have h0 := next_id_allocation [] 0
  have h := next_id_allocation [entryOne, entryTwo] 2
  exact ⟨h0.1 rfl, h.2.1, h.2.2.1 (by decide), h.2.2.2 ⟨entryTwo, by decide, by decide⟩⟩

/-! ## Forwarder and Fleet Registry (proxy_handler.py)

The global registry `proxy_servers : Dict[int, {handler, port, remote}]` is
modelled as an association list of `RegEntry`.  The operating system's view
of bound ports is modelled in `NetState`: a port can be bound either by a
registered forwarder (its `RegEntry`) or by something outside the registry
(`ext`, e.g. a foreign process or a stale listener).  `asyncio.start_server`
succeeding is modelled as the requested port not being busy; a bind failure
with `errno 98` corresponds to `portBusy = true`.  `RawProxyHandler.stop`
swallows its own exceptions (proxy_handler.py lines 141-154), so stopping is
modelled as always succeeding and releasing the entry's port. -/

/-- One record of the global `proxy_servers` registry
(proxy_handler.py lines 104-109). -/
structure RegEntry where
  id : Nat
  port : Nat
  remote : String
deriving DecidableEq

/-- The registry together with the ports bound outside of it. -/
structure NetState where
  reg : List RegEntry
  ext : List Nat
deriving DecidableEq

/-- `proxy_id in proxy_servers`. -/
def regHas (reg : List RegEntry) (i : Nat) : Bool :=
  reg.any (fun e => e.id == i)

/-- Mirrors `RawProxyHandler.stop` / `del proxy_servers[self.proxy_id]`
(proxy_handler.py lines 141-154): closes the listener (releasing the port)
and removes the registry record; exceptions are swallowed, so it always
succeeds. -/
def handlerStop (i : Nat) (st : NetState) : NetState :=
  { st with reg := st.reg.filter (fun e => e.id != i) }

/-- Mirrors `stop_proxy_handler` (proxy_handler.py lines 177-181): looks the
id up in the registry and stops the handler when present. -/
def stop_proxy_handler (i : Nat) (st : NetState) : NetState :=
  if regHas st.reg i then handlerStop i st else st

/-- Mirrors `RawProxyHandler.is_running` (proxy_handler.py lines 165-167). -/
def is_running (i : Nat) (st : NetState) : Bool :=
  regHas st.reg i

/-- A bind on `0.0.0.0:p` fails with "address already in use" exactly when
the port is held by a registered forwarder or by an external listener. -/
def portBusy (st : NetState) (p : Nat) : Bool :=
  st.ext.contains p || st.reg.any (fun e => e.port == p)

/-- Dict assignment `proxy_servers[id] = {...}`
(proxy_handler.py lines 105-109). -/
def registryStore (e : RegEntry) (reg : List RegEntry) : List RegEntry :=
  e :: reg.filter (fun x => x.id != e.id)

/-- The conflict scan of `RawProxyHandler.start`
(proxy_handler.py lines 118-126): the first registry record bound to the
same port under a different id. -/
def findConflict (reg : List RegEntry) (i p : Nat) : Option RegEntry :=
  reg.find? (fun e => e.port == p && e.id != i)

/-- The first step of `RawProxyHandler.start`
(proxy_handler.py lines 90-93): if this proxy id is already registered,
stop the old instance before binding. -/
def ownCleanup (i : Nat) (st : NetState) : NetState :=
  if regHas st.reg i then handlerStop i st else st

/-- Outcome of a `RawProxyHandler.start` call.  `portUnavailable` is the
`raise Exception("Port ... couldn't be cleaned up")` of line 133 (the
spec's `PortUnavailable`); `bindFailed` is the re-raise of the bind error
when retries are disabled (line 136). -/
inductive StartOutcome where
  | ok
  | portUnavailable
  | bindFailed
deriving DecidableEq

/-- `RawProxyHandler.start(retry=False)` (proxy_handler.py lines 86-139
with the `retry` flag false): stop a previous instance of the same id, then
bind; on success register `{handler, port, remote}`; on an in-use port
re-raise without any recovery attempt. -/
def startNoRetry (i p : Nat) (r : String) (st : NetState) : StartOutcome × NetState :=
  let st1 := ownCleanup i st
  if portBusy st1 p then (StartOutcome.bindFailed, st1)
  else (StartOutcome.ok, { st1 with reg := registryStore { id := i, port := p, remote := r } st1.reg })

/-- `RawProxyHandler.start(retry=True)` (proxy_handler.py lines 86-139, the
default): on a bind conflict, scan the registry for another entry on the
same port; if found, stop it and retry the bind exactly once with retries
disabled; otherwise raise the port-unavailable error. -/
def start (i p : Nat) (r : String) (st : NetState) : StartOutcome × NetState :=
  let st1 := ownCleanup i st
  if portBusy st1 p then
    match findConflict st1.reg i p with
    | some e => startNoRetry i p r (handlerStop e.id st1)
    | none => (StartOutcome.portUnavailable, st1)
  else (StartOutcome.ok, { st1 with reg := registryStore { id := i, port := p, remote := r } st1.reg })

/-! ### Helper lemmas about the registry operations -/

theorem regHas_handlerStop_self (i : Nat) (st : NetState) :
    regHas (handlerStop i st).reg i = false := by
  rw [Bool.eq_false_iff]
  intro hcon
  unfold regHas handlerStop at hcon
  rw [List.any_eq_true] at hcon
  obtain ⟨e, he, heq⟩ := hcon
  rw [List.mem_filter] at he
  rw [beq_iff_eq] at heq
  rw [heq] at he
  simp at he

theorem regHas_ownCleanup_self (i : Nat) (st : NetState) :
    regHas (ownCleanup i st).reg i = false := by
  unfold ownCleanup
  cases h : regHas st.reg i with
  | false => simpa using h
  | true => simp [regHas_handlerStop_self]

/-- A failed start registers nothing for the requested id. -/
theorem start_failed_not_registered (i p : Nat) (r : String) (st : NetState)
    (h : (start i p r st).1 ≠ StartOutcome.ok) :
    regHas (start i p r st).2.reg i = false := by
  unfold start at *
  cases hb : portBusy (ownCleanup i st) p with
  | false => simp [hb] at h
  | true =>
    simp only [hb, if_true] at h ⊢
    cases hc : findConflict (ownCleanup i st).reg i p with
    | none => simpa [hc] using regHas_ownCleanup_self i st
    | some e =>
      simp only [hc] at h ⊢
      unfold startNoRetry at h ⊢
      cases hb2 : portBusy (ownCleanup i (handlerStop e.id (ownCleanup i st))) p with
      | false => simp [hb2] at h
      | true =>
        simp only [hb2, if_true]
        exact regHas_ownCleanup_self i (handlerStop e.id (ownCleanup i st))

/-- A successful start registers the requested id. -/
theorem start_ok_registered (i p : Nat) (r : String) (st : NetState)
    (h : (start i p r st).1 = StartOutcome.ok) :
    regHas (start i p r st).2.reg i = true := by
  unfold start at *
  cases hb : portBusy (ownCleanup i st) p with
  | false => simp [hb, regHas, registryStore]
  | true =>
    simp only [hb, if_true] at h ⊢
    cases hc : findConflict (ownCleanup i st).reg i p with
    | none => simp [hc] at h
    | some e =>
      simp only [hc] at h ⊢
      unfold startNoRetry at h ⊢
      cases hb2 : portBusy (ownCleanup i (handlerStop e.id (ownCleanup i st))) p with
      | false => simp [hb2, regHas, registryStore]
      | true => simp [hb2] at h

/-! ### C1: port-conflict recovery in Forwarder.start -/

/-- C1: when the bind attempt of `start` fails because the port is already
in use (`portBusy` after the own-id cleanup), then: if the registry holds
some other entry on the same port, `start` stops that entry and performs
exactly one further bind attempt with retries disabled (it IS the
`startNoRetry` call on the state with the conflicting owner stopped); if no
conflicting owner is registered, `start` fails with the port-unavailable
error, leaves the state as it was after the own-id cleanup, and registers
nothing for the requested id. -/
theorem start_port_conflict_recovery (i p : Nat) (r : String) (st : NetState)
    (hbusy : portBusy (ownCleanup i st) p = true) :
    (∀ e, findConflict (ownCleanup i st).reg i p = some e →
      start i p r st = startNoRetry i p r (handlerStop e.id (ownCleanup i st)))
    ∧ (findConflict (ownCleanup i st).reg i p = none →
      start i p r st = (StartOutcome.portUnavailable, ownCleanup i st)
      ∧ regHas (start i p r st).2.reg i = false) := by
  constructor
  · intro e he
    unfold start
    simp only [hbusy, if_true, he]
  · intro hn
    have heq : start i p r st = (StartOutcome.portUnavailable, ownCleanup i st) := by
      unfold start
      simp only [hbusy, if_true, hn]
    refine ⟨heq, ?_⟩
    rw [heq]
    exact regHas_ownCleanup_self i st

/-- A state where port 9000 is held by registry entry 7 and the bind of
entry 1 conflicts with it. -/
def conflictState : NetState :=
  { reg := [{ id := 7, port := 9000, remote := "5.6.7.8:1000" }], ext := [] }

/-- A state where port 9000 is held externally with no registry owner. -/
def externalBusyState : NetState :=
  { reg := [], ext := [9000] }

theorem start_port_conflict_recovery_witness :
    start 1 9000 "1.2.3.4:8080" conflictState
      = startNoRetry 1 9000 "1.2.3.4:8080"
          (handlerStop 7 (ownCleanup 1 conflictState))
    ∧ start 1 9000 "1.2.3.4:8080" externalBusyState
      = (StartOutcome.portUnavailable, ownCleanup 1 externalBusyState)
    ∧ regHas (start 1 9000 "1.2.3.4:8080" externalBusyState).2.reg 1 = false := by
  have h1 := start_port_conflict_recovery 1 9000 "1.2.3.4:8080" conflictState rfl
  have h2 := start_port_conflict_recovery 1 9000 "1.2.3.4:8080" externalBusyState rfl
  exact ⟨h1.1 { id := 7, port := 9000, remote := "5.6.7.8:1000" } rfl,
    (h2.2 rfl).1, (h2.2 rfl).2⟩

/-! ### C9: registry lifecycle of start/stop -/

/-- C9: after a successful `start`, `is_running` is true for the id; after
`stop_proxy_handler`, it is false; and stopping an id that is not in the
registry is a no-op leaving the state unchanged. -/
theorem forwarder_registry_lifecycle (i p : Nat) (r : String) (st : NetState) :
    ((start i p r st).1 = StartOutcome.ok →
      is_running i (start i p r st).2 = true)
    ∧ is_running i (stop_proxy_handler i st) = false
    ∧ (is_running i st = false → stop_proxy_handler i st = st) := by
  refine ⟨?_, ?_, ?_⟩
  · intro h
    exact start_ok_registered i p r st h
  · unfold is_running stop_proxy_handler
    cases h : regHas st.reg i with
    | false => simpa using h
    | true => simp [regHas_handlerStop_self]
  · intro h
    unfold is_running at h
    unfold stop_proxy_handler
    rw [h]
    simp

theorem forwarder_registry_lifecycle_witness :
    is_running 1 (start 1 9000 "1.2.3.4:8080" { reg := [], ext := [] }).2 = true
    ∧ is_running 1 (stop_proxy_handler 1 { reg := [], ext := [] }) = false
    ∧ stop_proxy_handler 1 { reg := [], ext := [] } = { reg := [], ext := [] } := by
  have h := forwarder_registry_lifecycle 1 9000 "1.2.3.4:8080" { reg := [], ext := [] }
  exact ⟨h.1 rfl, h.2.1, h.2.2 rfl⟩

/-! ## Rotation policies (worker.py)

The two auto-rotation guards of `auto_rotation_worker`.  The loops' side
effects (provider call, forwarder restart, persistence, logging) run only
for entries whose guard fires; the functions below return exactly the
sublist of entries for which a rotation is attempted. -/

/-- The guard of `rotate_expired_proxies` (worker.py lines 126-132): skip
when `expiration_at` is unset, otherwise rotate when
`now >= expiration - timedelta(minutes=1)` (times in epoch seconds). -/
def rotationDueExpiration (now : Int) (p : ProxyKey) : Bool :=
  match p.expiration_at with
  | none => false
  | some e => decide (e - 60 ≤ now)

/-- Mirrors `rotate_expired_proxies` (worker.py lines 120-168) restricted
to its rotation decision: the entries of the scan for which a rotation is
triggered. -/
def rotate_expired_proxies (now : Int) (proxies : List ProxyKey) : List ProxyKey :=
  proxies.filter (rotationDueExpiration now)

/-- The reference time of the interval policy (worker.py lines 177-181):
`last_rotated_at`, falling back to `created_at` when never rotated. -/
def lastRotationRef (p : ProxyKey) : Int :=
  match p.last_rotated_at with
  | none => p.created_at
  | some t => t

/-- `minutes_since_rotation = (now - last_rotated).total_seconds() / 60`
(worker.py line 183), with real division modelled over `ℚ`. -/
def minutesSinceRotation (now : Int) (p : ProxyKey) : ℚ :=
  ((now - lastRotationRef p : Int) : ℚ) / 60

/-- The guard of `rotate_by_interval` (worker.py line 186):
`minutes_since_rotation >= interval_minutes`. -/
def rotationDueInterval (now : Int) (interval_minutes : Nat) (p : ProxyKey) : Bool :=
  decide ((interval_minutes : ℚ) ≤ minutesSinceRotation now p)

/-- Mirrors `rotate_by_interval` (worker.py lines 171-223) restricted to
its rotation decision. -/
def rotate_by_interval (now : Int) (interval_minutes : Nat) (proxies : List ProxyKey) :
    List ProxyKey :=
  proxies.filter (rotationDueInterval now interval_minutes)

/-! ### C3: rotation triggers exactly at the specified instants -/

/-- C3: an entry of the rotation scan is rotated by the expiration policy
exactly when its `expiration_at` is set to some `e` with
`now >= e - 1 minute` (so entries with unset expiration are always
skipped), and it is rotated by the interval policy exactly when the minutes
elapsed since `last_rotated_at` (or `created_at` when never rotated) are at
least the configured interval — equivalently, in epoch seconds, when
`60 * interval <= now - lastRotationRef`. -/
theorem rotation_policy_triggers (now : Int) (m : Nat) (p : ProxyKey)
    (ps : List ProxyKey) :
    (p ∈ rotate_expired_proxies now ps ↔
      p ∈ ps ∧ ∃ e, p.expiration_at = some e ∧ e - 60 ≤ now)
    ∧ (p.expiration_at = none → p ∉ rotate_expired_proxies now ps)
    ∧ (p ∈ rotate_by_interval now m ps ↔
      p ∈ ps ∧ (m : ℚ) ≤ minutesSinceRotation now p)
    ∧ ((m : ℚ) ≤ minutesSinceRotation now p ↔
      60 * (m : Int) ≤ now - lastRotationRef p) := by
  have hq : ((m : ℚ) ≤ minutesSinceRotation now p ↔
      60 * (m : Int) ≤ now - lastRotationRef p) := by
    unfold minutesSinceRotation
    rw [le_div_iff₀ (by norm_num : (0 : ℚ) < 60)]
    constructor
    · intro h
      have h2 : ((60 * (m : Int) : Int) : ℚ) ≤ ((now - lastRotationRef p : Int) : ℚ) := by
        push_cast at h ⊢
        linarith
      exact_mod_cast h2
    · intro h
      have h2 : ((60 * (m : Int) : Int) : ℚ) ≤ ((now - lastRotationRef p : Int) : ℚ) := by
        exact_mod_cast h
      push_cast at h2 ⊢
      linarith
  refine ⟨?_, ?_, ?_, hq⟩
  · rw [rotate_expired_proxies, List.mem_filter]
    constructor
    · rintro ⟨hmem, hdue⟩
      refine ⟨hmem, ?_⟩
      unfold rotationDueExpiration at hdue
      cases he : p.expiration_at with
      | none => rw [he] at hdue; cases hdue
      | some e =>
        rw [he] at hdue
        exact ⟨e, rfl, of_decide_eq_true hdue⟩
    · rintro ⟨hmem, e, he, hle⟩
      refine ⟨hmem, ?_⟩
      unfold rotationDueExpiration
      rw [he]
      exact decide_eq_true hle
  · intro he hmem
    rw [rotate_expired_proxies, List.mem_filter] at hmem
    unfold rotationDueExpiration at hmem
    rw [he] at hmem
    exact absurd hmem.2 (by simp)
  · rw [rotate_by_interval, List.mem_filter]
    unfold rotationDueInterval
    constructor
    · rintro ⟨hmem, hdue⟩
      exact ⟨hmem, of_decide_eq_true hdue⟩
    · rintro ⟨hmem, hdue⟩
      exact ⟨hmem, decide_eq_true hdue⟩

/-- An entry expiring at epoch second 1000. -/
def expiringEntry : ProxyKey :=
  { baseEntry with expiration_at := some 1000, last_rotated_at := some 0 }

/-- An entry with no expiration timestamp. -/
def noExpiryEntry : ProxyKey :=
  { baseEntry with expiration_at := none, last_rotated_at := some 0, created_at := 0 }

theorem rotation_policy_triggers_witness :
    expiringEntry ∈ rotate_expired_proxies 940 [expiringEntry, noExpiryEntry]
    ∧ noExpiryEntry ∉ rotate_expired_proxies 940 [expiringEntry, noExpiryEntry]
    ∧ noExpiryEntry ∈ rotate_by_interval 600 10 [noExpiryEntry]
    ∧ ((10 : ℚ) ≤ minutesSinceRotation 600 noExpiryEntry ↔
      60 * (10 : Int) ≤ 600 - lastRotationRef noExpiryEntry) := by
  have h1 := rotation_policy_triggers 940 10 expiringEntry [expiringEntry, noExpiryEntry]
  have h2 := rotation_policy_triggers 940 10 noExpiryEntry [expiringEntry, noExpiryEntry]
  have h3 := rotation_policy_triggers 600 10 noExpiryEntry [noExpiryEntry]
  refine ⟨?_, h2.2.1 rfl, ?_, h3.2.2.2⟩
  · exact h1.1.mpr ⟨by decide, 1000, rfl, by norm_num⟩
  · refine h3.2.2.1.mpr ⟨by decide, ?_⟩
    rw [h3.2.2.2]
    decide

/-! ## Health check (main.py `check_proxy_health`, worker.py lines 29-91)

The network probe — a TCP connection to the upstream endpoint, a plaintext
GET, and a bounded read — is abstracted as a `ProbeResult`; the elapsed
time measurement `int((now - start).total_seconds() * 1000)` is a
non-negative number of milliseconds, passed in as `latency`. -/

/-- Outcome of the TCP probe: a response with its first bytes, or one of
the caught failures (`asyncio.TimeoutError`, `OSError`,
`ConnectionRefusedError`). -/
inductive ProbeResult where
  | response (data : List Nat)
  | timeout
  | osFailure
  | connRefused
deriving DecidableEq

/-- A byte sequence starts with the given pattern. -/
def startsWithSeq : List Nat → List Nat → Bool
  | [], _ => true
  | _ :: _, [] => false
  | a :: pa, b :: lb => a == b && startsWithSeq pa lb

/-- A byte sequence occurs contiguously somewhere in the data. -/
def containsSeq (pat : List Nat) : List Nat → Bool
  | [] => pat.isEmpty
  | b :: lb => startsWithSeq pat (b :: lb) || containsSeq pat lb

/-- `b"HTTP" in response_data`: the byte sequence 72,84,84,80 occurs in the
first bytes read back. -/
def bytesContainHTTP (data : List Nat) : Bool :=
  containsSeq [72, 84, 84, 80] data

/-- Mirrors the classification of `check_proxy_health`
(main.py lines 560-598, identically worker.py lines 41-79): a truthy
response containing `HTTP` sets `status="active"` and the measured latency;
anything else — empty or malformed response, timeout, refusal, OS error —
sets `status="error"` and clears the latency; both branches stamp
`last_check_at`. -/
def check_proxy_health (now : Int) (latency : Nat) (res : ProbeResult)
    (p : ProxyKey) : ProxyKey :=
  match res with
  | ProbeResult.response d =>
    if !d.isEmpty && bytesContainHTTP d then
      { p with status := "active", latency_ms := some latency, last_check_at := some now }
    else
      { p with status := "error", latency_ms := none, last_check_at := some now }
  | _ => { p with status := "error", latency_ms := none, last_check_at := some now }

/-- The updated record is persisted via `update_proxy` (main.py line 598):
if the store has a record with this id, the checked record is stored. -/
theorem update_proxy_mem (p : ProxyKey) (db : List ProxyKey)
    (h : ∃ q ∈ db, q.id = p.id) : p ∈ update_proxy p db := by
  induction db with
  | nil => obtain ⟨q, hq, _⟩ := h; cases hq
  | cons a l ih =>
    obtain ⟨q, hq, hid⟩ := h
    unfold update_proxy
    cases hqa : a.id == p.id with
    | true => simp
    | false =>
      cases hq with
      | head =>
        rw [hid] at hqa
        simp at hqa
      | tail _ hql =>
        simp only [Bool.false_eq_true, if_false]
        exact List.mem_cons_of_mem a (ih ⟨q, hql, hid⟩)

/-! ### C4: health-check classification, stamping and persistence -/

/-- C4: a probe response whose first bytes contain `HTTP` yields
`status = "active"` with the (non-negative, `Nat`) measured latency in
milliseconds; a timeout, connection refusal, OS error or a response lacking
`HTTP` yields `status = "error"` with a null latency; in both outcomes
`last_check_at` is stamped with the check time and the updated record is
persisted into the store. -/
theorem health_check_classification (now : Int) (latency : Nat)
    (res : ProbeResult) (p : ProxyKey) (db : List ProxyKey) :
    ((∃ d, res = ProbeResult.response d ∧ bytesContainHTTP d = true) →
      (check_proxy_health now latency res p).status = "active"
      ∧ (check_proxy_health now latency res p).latency_ms = some latency)
    ∧ ((∀ d, res = ProbeResult.response d → bytesContainHTTP d = false) →
      (check_proxy_health now latency res p).status = "error"
      ∧ (check_proxy_health now latency res p).latency_ms = none)
    ∧ (check_proxy_health now latency res p).last_check_at = some now
    ∧ ((∃ q ∈ db, q.id = p.id) →
      check_proxy_health now latency res p
        ∈ update_proxy (check_proxy_health now latency res p) db) := by
  refine ⟨?_, ?_, ?_, ?_⟩
  · rintro ⟨d, hres, hhttp⟩
    subst hres
    have hne : d.isEmpty = false := by
      cases d with
      | nil => exact absurd hhttp (by decide)
      | cons a t => rfl
    constructor <;> simp [check_proxy_health, hne, hhttp]
  · intro hmal
    cases res with
    | response d =>
      have hd := hmal d rfl
      constructor <;> simp [check_proxy_health, hd]
    | timeout => exact ⟨rfl, rfl⟩
    | osFailure => exact ⟨rfl, rfl⟩
    | connRefused => exact ⟨rfl, rfl⟩
  · cases res with
    | response d =>
      simp only [check_proxy_health]
      split <;> rfl
    | timeout => rfl
    | osFailure => rfl
    | connRefused => rfl
  · intro h
    refine update_proxy_mem _ db ?_
    obtain ⟨q, hq, hid⟩ := h
    refine ⟨q, hq, ?_⟩
    cases res with
    | response d =>
      simp only [check_proxy_health]
      split <;> exact hid
    | timeout => exact hid
    | osFailure => exact hid
    | connRefused => exact hid

theorem health_check_classification_witness :
    ((check_proxy_health 5 7 (ProbeResult.response [72, 84, 84, 80, 47]) baseEntry).status
        = "active"
      ∧ (check_proxy_health 5 7 (ProbeResult.response [72, 84, 84, 80, 47]) baseEntry).latency_ms
        = some 7)
    ∧ ((check_proxy_health 5 7 ProbeResult.timeout baseEntry).status = "error"
      ∧ (check_proxy_health 5 7 ProbeResult.timeout baseEntry).latency_ms = none)
    ∧ (check_proxy_health 5 7 ProbeResult.timeout baseEntry).last_check_at = some 5
    ∧ check_proxy_health 5 7 ProbeResult.timeout baseEntry
      ∈ update_proxy (check_proxy_health 5 7 ProbeResult.timeout baseEntry) [baseEntry] := by
  have h1 := health_check_classification 5 7
    (ProbeResult.response [72, 84, 84, 80, 47]) baseEntry [baseEntry]
  have h2 := health_check_classification 5 7 ProbeResult.timeout baseEntry [baseEntry]
  refine ⟨h1.1 ⟨[72, 84, 84, 80, 47], rfl, by decide⟩, ?_, h2.2.2.1,
    h2.2.2.2 ⟨baseEntry, by decide, rfl⟩⟩
  exact h2.2.1 (fun d hd => by cases hd)

/-! ## Entry creation (main.py `create_proxy`, lines 224-305)

The provider call `kiotproxy_client.get_current_proxy` is modelled by its
result, an `Except String RemoteData`.  The Traefik regeneration and the
audit-log append of the success path touch neither the persisted records
nor the registry and are not modelled here. -/

/-- The provider's `UpstreamInfo` payload (`data` of the KiotProxy API
response): endpoint, public IP, location, expiration in epoch ms, ttl/ttc. -/
structure RemoteData where
  http : String
  realIpAddress : String
  location : String
  expirationAt : Option Int
  ttl : Option Int
  ttc : Option Int
deriving DecidableEq

/-- The conversion of `expirationAt` (main.py lines 246-247): Python's
truthiness makes both a missing key and a 0 value fall to `None`; the
millisecond value is divided by 1000 (modelled at second granularity with
integer division). -/
def expirationSecs (ms : Option Int) : Option Int :=
  match ms with
  | none => none
  | some e => if e = 0 then none else some (e / 1000)

/-- The `ProxyKey(...)` construction shared by `create_proxy`
(main.py lines 249-267) and `bulk_import_proxies` (lines 348-366):
`key_name` is derived from the location, the status starts as `"active"`,
and `last_rotated_at`/`created_at` are stamped with the current time. -/
def buildProxyRecord (rd : RemoteData) (uid i : Nat) (sub : String) (port : Nat)
    (region key : String) (now : Int) : ProxyKey :=
  { id := i, user_id := uid, key_name := rd.location ++ "-" ++ toString i
    kiotproxy_key := key, subdomain := sub, port := port, region := region
    is_active := true, remote_http := some rd.http
    remote_ip := some rd.realIpAddress, location := some rd.location
    status := "active", latency_ms := none, last_check_at := none
    expiration_at := expirationSecs rd.expirationAt, ttl := rd.ttl, ttc := rd.ttc
    last_rotated_at := some now, created_at := now }

/-- Mirrors `create_proxy` (main.py lines 224-305): fetch the current
upstream from the provider, allocate id/subdomain/port, persist the new
record with `status="active"`, then start the forwarder; any raised step
surfaces as `Except.error` (the endpoint's HTTP 500).  The source has no
failure handler between `add_proxy` and a failed `start_proxy_handler`:
the persisted record is left exactly as added. -/
def create_proxy (remote : Except String RemoteData) (uid : Nat) (now : Int)
    (port_start : Nat) (region key : String) (db : List ProxyKey)
    (st : NetState) : Except String ProxyKey × List ProxyKey × NetState :=
  match remote with
  | Except.error e => (Except.error e, db, st)
  | Except.ok rd =>
    match get_next_subdomain db with
    | Except.error e => (Except.error e, db, st)
    | Except.ok sub =>
      match get_next_port port_start db with
      | Except.error e => (Except.error e, db, st)
      | Except.ok port =>
        let i := get_next_proxy_id db
        let proxy := buildProxyRecord rd uid i sub port region key now
        let db1 := add_proxy proxy db
        match start i port rd.http st with
        | (StartOutcome.ok, st1) => (Except.ok proxy, db1, st1)
        | (_, st1) => (Except.error "failed to start proxy handler", db1, st1)

/-! ### C2: create with a failing start -/

/-- A provider payload used in concrete runs. -/
def demoRemote : RemoteData :=
  { http := "1.2.3.4:8080", realIpAddress := "1.2.3.4", location := "VN"
    expirationAt := some 1000000, ttl := some 60, ttc := some 5 }

/-- C2 counterexample: with an empty store and port 9000 externally bound
with no registry owner, `create_proxy` persists the new entry and then
fails to start its forwarder — the operation errors out, yet the persisted
entry keeps `status = "active"`; it is NOT set to `"error"` as the claim
states. -/
theorem create_start_failure_counterexample :
    (create_proxy (Except.ok demoRemote) 1 0 9000 "random" "k1" []
      { reg := [], ext := [9000] }).1
      = Except.error "failed to start proxy handler"
    ∧ ((create_proxy (Except.ok demoRemote) 1 0 9000 "random" "k1" []
      { reg := [], ext := [9000] }).2.1.map (fun q => (q.id, q.status)))
      = [(1, "active")] := by
  exact ⟨rfl, rfl⟩

/-- C2 (amended): when the forwarder start fails after the new entry has
been persisted, `create_proxy` surfaces the failure to the caller and
leaves no forwarder registered for the new id, and the persisted entry is
not dropped — but its status remains `"active"`; the source never sets it
to `"error"`. -/
theorem create_start_failure_amended (rd : RemoteData) (uid : Nat) (now : Int)
    (port_start : Nat) (region key : String) (db : List ProxyKey) (st : NetState)
    (sub : String) (port : Nat)
    (hsub : get_next_subdomain db = Except.ok sub)
    (hport : get_next_port port_start db = Except.ok port)
    (hstart : (start (get_next_proxy_id db) port rd.http st).1 ≠ StartOutcome.ok) :
    (create_proxy (Except.ok rd) uid now port_start region key db st).1
      = Except.error "failed to start proxy handler"
    ∧ regHas (create_proxy (Except.ok rd) uid now port_start region key db st).2.2.reg
        (get_next_proxy_id db) = false
    ∧ (∃ q ∈ (create_proxy (Except.ok rd) uid now port_start region key db st).2.1,
        q.id = get_next_proxy_id db ∧ q.status = "active") := by
  have hreg := start_failed_not_registered (get_next_proxy_id db) port rd.http st hstart
  cases hs : start (get_next_proxy_id db) port rd.http st with
  | mk outcome st1 =>
    rw [hs] at hstart hreg
    have hmem : buildProxyRecord rd uid (get_next_proxy_id db) sub port region key now
        ∈ add_proxy (buildProxyRecord rd uid (get_next_proxy_id db) sub port region key now) db := by
      simp [add_proxy]
    cases outcome with
    | ok => exact absurd rfl hstart
    | portUnavailable =>
      have hcp : create_proxy (Except.ok rd) uid now port_start region key db st
          = (Except.error "failed to start proxy handler",
            add_proxy (buildProxyRecord rd uid (get_next_proxy_id db) sub port region key now) db,
            st1) := by
        simp only [create_proxy, hsub, hport, hs]
      rw [hcp]
      exact ⟨rfl, hreg, _, hmem, rfl, rfl⟩
    | bindFailed =>
      have hcp : create_proxy (Except.ok rd) uid now port_start region key db st
          = (Except.error "failed to start proxy handler",
            add_proxy (buildProxyRecord rd uid (get_next_proxy_id db) sub port region key now) db,
            st1) := by
        simp only [create_proxy, hsub, hport, hs]
      rw [hcp]
      exact ⟨rfl, hreg, _, hmem, rfl, rfl⟩

theorem create_start_failure_amended_witness :
    (create_proxy (Except.ok demoRemote) 1 0 9000 "random" "k1" []
      { reg := [], ext := [9000] }).1
      = Except.error "failed to start proxy handler"
    ∧ regHas (create_proxy (Except.ok demoRemote) 1 0 9000 "random" "k1" []
      { reg := [], ext := [9000] }).2.2.reg 1 = false
    ∧ (∃ q ∈ (create_proxy (Except.ok demoRemote) 1 0 9000 "random" "k1" []
      { reg := [], ext := [9000] }).2.1, q.id = 1 ∧ q.status = "active") := by
  have h := create_start_failure_amended demoRemote 1 0 9000 "random" "k1" []
    { reg := [], ext := [9000] } "proxy1" 9000 rfl rfl (by decide)
  exact h

/-! ## Bulk import (main.py `bulk_import_proxies`, lines 308-408)

The request carries a newline-separated credential string; the handler
first parses it into the key list (split on newlines, strip, drop empty
lines).  The parsing is plain string plumbing and is not modelled: the
model takes the parsed `keys : List String` directly — the emptiness check
and the 50-key cap of lines 315-319 operate on exactly that list.  The
provider client is a function `String → Except String RemoteData`; each
call made is counted in `providerCalls`, and each regeneration of the
gateway configuration is counted by the returned `traefikWrites`. -/

/-- Accumulated state of the sequential import loop: the store, the
registry/network state, the number of provider calls made, and the
`results["success"]` / `results["failed"]` report lists (failures carry
`str(e)` as their reason, main.py lines 386-391). -/
structure BulkAcc where
  db : List ProxyKey
  net : NetState
  providerCalls : Nat
  succ : List String
  failed : List (String × String)
deriving DecidableEq

/-- The loop state at entry of the import loop: fresh report lists. -/
def bulkInit (db : List ProxyKey) (net : NetState) (pc : Nat) : BulkAcc :=
  { db := db, net := net, providerCalls := pc, succ := [], failed := [] }

/-- One iteration of the import loop (main.py lines 326-391): call the
provider, allocate id/subdomain/port, persist, start the forwarder; any
failing step sends the key with its reason to the `failed` list and the
loop continues — a failure after `add_proxy` leaves the record persisted,
exactly as in the source. -/
def bulk_item (P : String → Except String RemoteData) (uid : Nat) (now : Int)
    (port_start : Nat) (region : String) (acc : BulkAcc) (key : String) : BulkAcc :=
  let acc1 := { acc with providerCalls := acc.providerCalls + 1 }
  match P key with
  | Except.error e => { acc1 with failed := acc1.failed ++ [(key, e)] }
  | Except.ok rd =>
    match get_next_subdomain acc1.db with
    | Except.error e => { acc1 with failed := acc1.failed ++ [(key, e)] }
    | Except.ok sub =>
      match get_next_port port_start acc1.db with
      | Except.error e => { acc1 with failed := acc1.failed ++ [(key, e)] }
      | Except.ok port =>
        let i := get_next_proxy_id acc1.db
        let proxy := buildProxyRecord rd uid i sub port region key now
        let db1 := add_proxy proxy acc1.db
        match start i port rd.http acc1.net with
        | (StartOutcome.ok, st1) =>
          { acc1 with db := db1, net := st1, succ := acc1.succ ++ [key] }
        | (_, st1) =>
          { acc1 with
            db := db1
            net := st1
            failed := acc1.failed ++ [(key, "failed to start proxy handler")] }

/-- The sequential processing of the whole batch. -/
def bulkFold (P : String → Except String RemoteData) (uid : Nat) (now : Int)
    (port_start : Nat) (region : String) (keys : List String)
    (db : List ProxyKey) (net : NetState) (pc : Nat) : BulkAcc :=
  keys.foldl (bulk_item P uid now port_start region) (bulkInit db net pc)

/-- The `total / success_count / failed_count` summary returned by the
endpoint (main.py lines 397-402). -/
structure BulkReport where
  total : Nat
  success_count : Nat
  failed_count : Nat
deriving DecidableEq

/-- Mirrors `bulk_import_proxies` (main.py lines 308-408): reject an empty
batch and a batch of more than 50 keys before any provider call; otherwise
process the keys sequentially and regenerate the gateway configuration
exactly once at the end (`traefikWrites` goes from `tw` to `tw + 1`). -/
def bulk_import_proxies (P : String → Except String RemoteData) (uid : Nat)
    (now : Int) (port_start : Nat) (region : String) (keys : List String)
    (db : List ProxyKey) (net : NetState) (pc tw : Nat) :
    Except String BulkReport × BulkAcc × Nat :=
  if keys.isEmpty then (Except.error "No keys provided", bulkInit db net pc, tw)
  else if 50 < keys.length then
    (Except.error "Maximum 50 keys per import", bulkInit db net pc, tw)
  else
    (Except.ok
      { total := keys.length
        success_count := (bulkFold P uid now port_start region keys db net pc).succ.length
        failed_count := (bulkFold P uid now port_start region keys db net pc).failed.length },
      bulkFold P uid now port_start region keys db net pc, tw + 1)

/-! ### Partition of the batch into the two report lists -/

theorem bulk_item_partition (P : String → Except String RemoteData) (uid : Nat)
    (now : Int) (port_start : Nat) (region : String) (acc : BulkAcc) (key : String) :
    (bulk_item P uid now port_start region acc key).succ.length
      + (bulk_item P uid now port_start region acc key).failed.length
      = acc.succ.length + acc.failed.length + 1 := by
  unfold bulk_item
  cases hP : P key with
  | error e =>
    simp [hP]
    omega
  | ok rd =>
    cases hS : get_next_subdomain acc.db with
    | error e =>
      simp [hP, hS]
      omega
    | ok sub =>
      cases hPort : get_next_port port_start acc.db with
      | error e =>
        simp [hP, hS, hPort]
        omega
      | ok port =>
        cases hStart : start (get_next_proxy_id acc.db) port rd.http acc.net with
        | mk outcome st1 =>
          cases outcome with
          | ok =>
            simp [hP, hS, hPort, hStart]
            omega
          | portUnavailable =>
            simp [hP, hS, hPort, hStart]
            omega
          | bindFailed =>
            simp [hP, hS, hPort, hStart]
            omega

theorem bulkFold_partition (P : String → Except String RemoteData) (uid : Nat)
    (now : Int) (port_start : Nat) (region : String) :
    ∀ (keys : List String) (acc : BulkAcc),
      (keys.foldl (bulk_item P uid now port_start region) acc).succ.length
        + (keys.foldl (bulk_item P uid now port_start region) acc).failed.length
        = acc.succ.length + acc.failed.length + keys.length := by
  intro keys
  induction keys with
  | nil => intro acc; simp
  | cons k t ih =>
    intro acc
    rw [List.foldl_cons, ih (bulk_item P uid now port_start region acc k),
      bulk_item_partition]
    simp only [List.length_cons]
    omega

/-! ### C7: batch cap, per-item isolation, single regeneration -/

/-- C7: a batch of more than 50 keys is rejected before any provider call
(the returned state still has the initial `providerCalls` and the gateway
configuration count is untouched); an accepted non-empty batch is processed
sequentially with every key landing in exactly one of the success/failed
report lists (`success_count + failed_count = total`), and the gateway
configuration is regenerated exactly once at the end. -/
theorem bulk_import_batch_behavior (P : String → Except String RemoteData)
    (uid : Nat) (now : Int) (port_start : Nat) (region : String)
    (keys : List String) (db : List ProxyKey) (net : NetState) (pc tw : Nat) :
    (50 < keys.length →
      bulk_import_proxies P uid now port_start region keys db net pc tw
        = (Except.error "Maximum 50 keys per import", bulkInit db net pc, tw))
    ∧ (keys ≠ [] → keys.length ≤ 50 →
      bulk_import_proxies P uid now port_start region keys db net pc tw
        = (Except.ok
            { total := keys.length
              success_count := (bulkFold P uid now port_start region keys db net pc).succ.length
              failed_count := (bulkFold P uid now port_start region keys db net pc).failed.length },
          bulkFold P uid now port_start region keys db net pc, tw + 1)
      ∧ (bulkFold P uid now port_start region keys db net pc).succ.length
          + (bulkFold P uid now port_start region keys db net pc).failed.length
          = keys.length) := by
  constructor
  · intro hlen
    have hne : keys.isEmpty = false := by
      cases keys with
      | nil => simp at hlen
      | cons a t => rfl
    unfold bulk_import_proxies
    rw [hne]
    simp only [Bool.false_eq_true, if_false]
    rw [if_pos hlen]
  · intro hne hlen
    have hne2 : keys.isEmpty = false := by
      cases keys with
      | nil => exact absurd rfl hne
      | cons a t => rfl
    have hnl : ¬ 50 < keys.length := Nat.not_lt.mpr hlen
    constructor
    · unfold bulk_import_proxies
      rw [hne2]
      simp only [Bool.false_eq_true, if_false]
      rw [if_neg hnl]
    · have h := bulkFold_partition P uid now port_start region keys (bulkInit db net pc)
      unfold bulkFold
      simpa [bulkInit] using h

/-- A provider that succeeds on the key `good` and fails on everything
else. -/
def demoProvider : String → Except String RemoteData := fun k =>
  if k == "good" then Except.ok demoRemote
  else Except.error "KiotProxy API error: provider down"

/-- A batch of 51 identical keys. -/
def batch51 : List String := List.replicate 51 "k"

theorem bulk_import_batch_behavior_witness :
    bulk_import_proxies demoProvider 1 0 9000 "random" batch51 []
        { reg := [], ext := [] } 0 5
      = (Except.error "Maximum 50 keys per import",
        bulkInit [] { reg := [], ext := [] } 0, 5)
    ∧ bulk_import_proxies demoProvider 1 0 9000 "random" ["good", "bad"] []
        { reg := [], ext := [] } 0 5
      = (Except.ok
          { total := 2
            success_count := (bulkFold demoProvider 1 0 9000 "random" ["good", "bad"] []
              { reg := [], ext := [] } 0).succ.length
            failed_count := (bulkFold demoProvider 1 0 9000 "random" ["good", "bad"] []
              { reg := [], ext := [] } 0).failed.length },
        bulkFold demoProvider 1 0 9000 "random" ["good", "bad"] []
          { reg := [], ext := [] } 0, 6)
    ∧ (bulkFold demoProvider 1 0 9000 "random" ["good", "bad"] []
        { reg := [], ext := [] } 0).succ.length = 1
    ∧ (bulkFold demoProvider 1 0 9000 "random" ["good", "bad"] []
        { reg := [], ext := [] } 0).failed.length = 1 := by
  have h51 := bulk_import_batch_behavior demoProvider 1 0 9000 "random" batch51 []
    { reg := [], ext := [] } 0 5
  have h2 := bulk_import_batch_behavior demoProvider 1 0 9000 "random" ["good", "bad"] []
    { reg := [], ext := [] } 0 5
  exact ⟨h51.1 (by decide), (h2.2 (by decide) (by decide)).1, rfl, rfl⟩

/-! ## Startup recovery (main.py `restart_all_proxies`, lines 74-112) and
gateway configuration (traefik_config.py `generate_traefik_config`,
lines 12-68) -/

/-- The routing table written by `generate_traefik_config`: one
`subdomain -> backend:port` route per entry, keeping only the entries whose
`is_active` flag is set (traefik_config.py line 24); the empty list is the
"empty but valid" configuration of lines 27-31. -/
def generate_traefik_config (proxies : List ProxyKey) : List (String × Nat) :=
  (proxies.filter (fun p => p.is_active)).map (fun p => (p.subdomain, p.port))

/-- Accumulator of the recovery loop: the persisted store, the
registry/network state, and the local `proxies` list of per-entry mutated
records that line 107 later filters by status. -/
structure RecAcc where
  db : List ProxyKey
  net : NetState
  processed : List ProxyKey
deriving DecidableEq

/-- One iteration of the recovery loop (main.py lines 86-102): an entry
with an upstream endpoint is started — `status` becomes `"active"` on
success and `"error"` on failure — and an entry without one is marked
`"pending"`; each outcome is persisted via `update_proxy`. -/
def restartEntry (acc : RecAcc) (p : ProxyKey) : RecAcc :=
  match p.remote_http with
  | some r =>
    match start p.id p.port r acc.net with
    | (StartOutcome.ok, st1) =>
      { db := update_proxy { p with status := "active" } acc.db, net := st1
        processed := acc.processed ++ [{ p with status := "active" }] }
    | (_, st1) =>
      { db := update_proxy { p with status := "error" } acc.db, net := st1
        processed := acc.processed ++ [{ p with status := "error" }] }
  | none =>
    { db := update_proxy { p with status := "pending" } acc.db, net := acc.net
      processed := acc.processed ++ [{ p with status := "pending" }] }

/-- Mirrors `restart_all_proxies` (main.py lines 74-112): clear the
registry (`proxy_servers.clear()`), process every entry flagged active, and
regenerate the gateway configuration from only the processed entries that
ended with `status == "active"` (line 107). -/
def restart_all_proxies (db : List ProxyKey) (net : NetState) :
    RecAcc × List (String × Nat) :=
  let acc := (get_active_proxies db).foldl restartEntry
    { db := db, net := { net with reg := [] }, processed := [] }
  (acc, generate_traefik_config (acc.processed.filter (fun p => p.status == "active")))

/-! ### Registry and store invariants of the recovery fold -/

theorem regHas_filter_imp (k j : Nat) (reg : List RegEntry)
    (h : regHas (reg.filter (fun e => e.id != k)) j = true) :
    regHas reg j = true := by
  unfold regHas at *
  rw [List.any_eq_true] at *
  obtain ⟨e, he, heq⟩ := h
  exact ⟨e, (List.mem_filter.mp he).1, heq⟩

theorem regHas_ownCleanup_imp (i j : Nat) (st : NetState)
    (h : regHas (ownCleanup i st).reg j = true) : regHas st.reg j = true := by
  unfold ownCleanup at h
  cases hr : regHas st.reg i with
  | false => rw [hr] at h; simpa using h
  | true =>
    rw [hr] at h
    simp only [if_true] at h
    exact regHas_filter_imp i j st.reg h

theorem regHas_registryStore_imp (e : RegEntry) (reg : List RegEntry) (j : Nat)
    (h : regHas (registryStore e reg) j = true) :
    regHas reg j = true ∨ j = e.id := by
  unfold registryStore regHas at h
  rw [List.any_eq_true] at h
  obtain ⟨x, hx, hxe⟩ := h
  cases hx with
  | head =>
    right
    rw [beq_iff_eq] at hxe
    exact hxe.symm
  | tail _ hx =>
    left
    unfold regHas
    rw [List.any_eq_true]
    exact ⟨x, (List.mem_filter.mp hx).1, hxe⟩

/-- A `start` call can register only its own id: any id present afterwards
was present before or is the started one. -/
theorem start_registers_only_own (i p : Nat) (r : String) (st : NetState) (j : Nat)
    (h : regHas (start i p r st).2.reg j = true) :
    regHas st.reg j = true ∨ j = i := by
  have hnr : ∀ (st2 : NetState), regHas (startNoRetry i p r st2).2.reg j = true →
      regHas st2.reg j = true ∨ j = i := by
    intro st2 h2
    cases hb : portBusy (ownCleanup i st2) p with
    | true =>
      simp only [startNoRetry, hb, if_true] at h2
      exact Or.inl (regHas_ownCleanup_imp i j st2 h2)
    | false =>
      simp only [startNoRetry, hb, Bool.false_eq_true, if_false] at h2
      cases regHas_registryStore_imp _ _ _ h2 with
      | inl hl => exact Or.inl (regHas_ownCleanup_imp i j st2 hl)
      | inr hr => exact Or.inr hr
  cases hb : portBusy (ownCleanup i st) p with
  | true =>
    simp only [start, hb, if_true] at h
    cases hc : findConflict (ownCleanup i st).reg i p with
    | none =>
      rw [hc] at h
      exact Or.inl (regHas_ownCleanup_imp i j st h)
    | some e =>
      rw [hc] at h
      cases hnr _ h with
      | inr hr => exact Or.inr hr
      | inl hl =>
        exact Or.inl (regHas_ownCleanup_imp i j st
          (regHas_filter_imp e.id j (ownCleanup i st).reg hl))
  | false =>
    simp only [start, hb, Bool.false_eq_true, if_false] at h
    cases regHas_registryStore_imp _ _ _ h with
    | inl hl => exact Or.inl (regHas_ownCleanup_imp i j st hl)
    | inr hr => exact Or.inr hr

theorem restartEntry_reg_imp (acc : RecAcc) (p : ProxyKey) (j : Nat)
    (h : regHas (restartEntry acc p).net.reg j = true) :
    regHas acc.net.reg j = true ∨ (j = p.id ∧ p.remote_http ≠ none) := by
  cases hr : p.remote_http with
  | none =>
    simp only [restartEntry, hr] at h
    exact Or.inl h
  | some r =>
    simp only [restartEntry, hr] at h
    cases hs : start p.id p.port r acc.net with
    | mk outcome st1 =>
      rw [hs] at h
      have hst1 : regHas st1.reg j = true := by
        cases outcome with
        | ok => exact h
        | portUnavailable => exact h
        | bindFailed => exact h
      have hso := start_registers_only_own p.id p.port r acc.net j (by rw [hs]; exact hst1)
      cases hso with
      | inl hl => exact Or.inl hl
      | inr hr2 => exact Or.inr ⟨hr2, by simp⟩

theorem recFold_reg_imp (l : List ProxyKey) (acc : RecAcc) (j : Nat)
    (h : regHas (l.foldl restartEntry acc).net.reg j = true) :
    regHas acc.net.reg j = true ∨ ∃ q ∈ l, j = q.id ∧ q.remote_http ≠ none := by
  induction l generalizing acc with
  | nil => exact Or.inl h
  | cons a t ih =>
    rw [List.foldl_cons] at h
    cases ih (restartEntry acc a) h with
    | inl hl =>
      cases restartEntry_reg_imp acc a j hl with
      | inl h2 => exact Or.inl h2
      | inr h2 => exact Or.inr ⟨a, List.mem_cons_self a t, h2⟩
    | inr hr =>
      obtain ⟨q, hq, hqj⟩ := hr
      exact Or.inr ⟨q, List.mem_cons_of_mem a hq, hqj⟩

theorem update_proxy_preserve (q r : ProxyKey) :
    ∀ (db : List ProxyKey), r ∈ db → r.id ≠ q.id → r ∈ update_proxy q db := by
  intro db
  induction db with
  | nil => intro hmem; cases hmem
  | cons a t ih =>
    intro hmem hne
    unfold update_proxy
    cases ha : a.id == q.id with
    | true =>
      simp only [if_true]
      cases hmem with
      | head =>
        rw [beq_iff_eq] at ha
        exact absurd ha hne
      | tail _ hm => exact List.mem_cons_of_mem q hm
    | false =>
      simp only [Bool.false_eq_true, if_false]
      cases hmem with
      | head => exact List.mem_cons_self _ _
      | tail _ hm => exact List.mem_cons_of_mem a (ih hm hne)

theorem restartEntry_db_preserve (acc : RecAcc) (p r : ProxyKey)
    (hmem : r ∈ acc.db) (hne : r.id ≠ p.id) : r ∈ (restartEntry acc p).db := by
  cases hrm : p.remote_http with
  | none =>
    simp only [restartEntry, hrm]
    exact update_proxy_preserve _ r acc.db hmem hne
  | some u =>
    cases hs : start p.id p.port u acc.net with
    | mk outcome st1 =>
      cases outcome with
      | ok =>
        simp only [restartEntry, hrm, hs]
        exact update_proxy_preserve _ r acc.db hmem hne
      | portUnavailable =>
        simp only [restartEntry, hrm, hs]
        exact update_proxy_preserve _ r acc.db hmem hne
      | bindFailed =>
        simp only [restartEntry, hrm, hs]
        exact update_proxy_preserve _ r acc.db hmem hne

theorem recFold_db_preserve (l : List ProxyKey) (acc : RecAcc) (r : ProxyKey)
    (hmem : r ∈ acc.db) (hne : ∀ q ∈ l, r.id ≠ q.id) :
    r ∈ (l.foldl restartEntry acc).db := by
  induction l generalizing acc with
  | nil => exact hmem
  | cons a t ih =>
    rw [List.foldl_cons]
    refine ih (restartEntry acc a)
      (restartEntry_db_preserve acc a r hmem (hne a (List.mem_cons_self a t))) ?_
    intro q hq
    exact hne q (List.mem_cons_of_mem a hq)

theorem recFold_processed_imp (l : List ProxyKey) (acc : RecAcc) (r : ProxyKey)
    (h : r ∈ (l.foldl restartEntry acc).processed) :
    r ∈ acc.processed
    ∨ ∃ q ∈ l, r.id = q.id ∧ r.subdomain = q.subdomain
      ∧ (q.remote_http = none → r.status = "pending") := by
  induction l generalizing acc with
  | nil => exact Or.inl h
  | cons a t ih =>
    rw [List.foldl_cons] at h
    cases ih (restartEntry acc a) h with
    | inr hr =>
      obtain ⟨q, hq, hqr⟩ := hr
      exact Or.inr ⟨q, List.mem_cons_of_mem a hq, hqr⟩
    | inl hl =>
      have hstep : r ∈ acc.processed
          ∨ (r.id = a.id ∧ r.subdomain = a.subdomain
            ∧ (a.remote_http = none → r.status = "pending")) := by
        cases hrm : a.remote_http with
        | none =>
          simp only [restartEntry, hrm] at hl
          rw [List.mem_append] at hl
          cases hl with
          | inl h2 => exact Or.inl h2
          | inr h2 =>
            rw [List.mem_singleton] at h2
            subst h2
            exact Or.inr ⟨rfl, rfl, fun _ => rfl⟩
        | some u =>
          cases hs : start a.id a.port u acc.net with
          | mk outcome st1 =>
            cases outcome with
            | ok =>
              simp only [restartEntry, hrm, hs] at hl
              rw [List.mem_append] at hl
              cases hl with
              | inl h3 => exact Or.inl h3
              | inr h3 =>
                rw [List.mem_singleton] at h3
                subst h3
                exact Or.inr ⟨rfl, rfl, fun hc => Option.noConfusion hc⟩
            | portUnavailable =>
              simp only [restartEntry, hrm, hs] at hl
              rw [List.mem_append] at hl
              cases hl with
              | inl h3 => exact Or.inl h3
              | inr h3 =>
                rw [List.mem_singleton] at h3
                subst h3
                exact Or.inr ⟨rfl, rfl, fun hc => Option.noConfusion hc⟩
            | bindFailed =>
              simp only [restartEntry, hrm, hs] at hl
              rw [List.mem_append] at hl
              cases hl with
              | inl h3 => exact Or.inl h3
              | inr h3 =>
                rw [List.mem_singleton] at h3
                subst h3
                exact Or.inr ⟨rfl, rfl, fun hc => Option.noConfusion hc⟩
      cases hstep with
      | inl h2 => exact Or.inl h2
      | inr h2 => exact Or.inr ⟨a, List.mem_cons_self a t, h2⟩

theorem map_nodup_split_ne {α β : Type} (l1 l2 : List α) (p : α) (f : α → β)
    (h : ((l1 ++ p :: l2).map f).Nodup) :
    (∀ q ∈ l1, f q ≠ f p) ∧ (∀ q ∈ l2, f q ≠ f p) := by
  rw [List.map_append, List.map_cons] at h
  constructor
  · intro q hq heq
    exact (List.disjoint_of_nodup_append h) (List.mem_map.mpr ⟨q, hq, rfl⟩)
      (by rw [heq]; exact List.mem_cons_self _ _)
  · intro q hq heq
    have h2 := (List.nodup_cons.mp h.of_append_right).1
    exact h2 (by rw [← heq]; exact List.mem_map.mpr ⟨q, hq, rfl⟩)

/-! ### C8: recovery of an active entry lacking an upstream endpoint -/

/-- C8: in a startup recovery over a store with pairwise-distinct ids and
subdomains, an entry flagged active whose upstream endpoint is null ends
with a persisted record of status `"pending"`, has no forwarder registered
under its id, and its subdomain is absent from the regenerated gateway
configuration — which routes only entries that ended the recovery with
status `"active"` (and are flagged active). -/
theorem startup_recovery_pending (db : List ProxyKey) (net : NetState) (p : ProxyKey)
    (hmem : p ∈ db) (hact : p.is_active = true) (hrem : p.remote_http = none)
    (hid : (db.map (fun q => q.id)).Nodup)
    (hsubs : (db.map (fun q => q.subdomain)).Nodup) :
    (∃ q ∈ (restart_all_proxies db net).1.db, q.id = p.id ∧ q.status = "pending")
    ∧ regHas (restart_all_proxies db net).1.net.reg p.id = false
    ∧ p.subdomain ∉ ((restart_all_proxies db net).2).map Prod.fst
    ∧ (∀ rt ∈ (restart_all_proxies db net).2,
        ∃ q ∈ (restart_all_proxies db net).1.processed,
          q.status = "active" ∧ q.is_active = true ∧ rt = (q.subdomain, q.port)) := by
  have hpA : p ∈ get_active_proxies db := by
    rw [get_active_proxies, List.mem_filter]
    exact ⟨hmem, hact⟩
  have hsubsetA : ∀ q ∈ get_active_proxies db, q ∈ db := by
    intro q hq
    exact List.mem_of_mem_filter hq
  have hidA : ((get_active_proxies db).map (fun q => q.id)).Nodup :=
    hid.sublist (List.Sublist.map _ (List.filter_sublist db))
  obtain ⟨l1, l2, hsplit⟩ := List.append_of_mem hpA
  have hne12 := map_nodup_split_ne l1 l2 p (fun q => q.id) (by rw [← hsplit]; exact hidA)
  have hAeq : (restart_all_proxies db net).1
      = (get_active_proxies db).foldl restartEntry
        { db := db, net := { net with reg := [] }, processed := [] } := rfl
  have hfold : (get_active_proxies db).foldl restartEntry
        { db := db, net := { net with reg := [] }, processed := [] }
      = l2.foldl restartEntry (restartEntry
          (l1.foldl restartEntry
            { db := db, net := { net with reg := [] }, processed := [] }) p) := by
    rw [hsplit, List.foldl_append, List.foldl_cons]
  -- the pending record persists
  have hp1 : p ∈ (l1.foldl restartEntry
      { db := db, net := { net with reg := [] }, processed := [] }).db := by
    refine recFold_db_preserve l1 _ p hmem ?_
    intro q hq heq
    exact hne12.1 q hq heq.symm
  have hstep : (restartEntry (l1.foldl restartEntry
        { db := db, net := { net with reg := [] }, processed := [] }) p).db
      = update_proxy { p with status := "pending" }
        (l1.foldl restartEntry
          { db := db, net := { net with reg := [] }, processed := [] }).db := by
    simp only [restartEntry, hrem]
  have hp2 : { p with status := "pending" } ∈ (restartEntry (l1.foldl restartEntry
      { db := db, net := { net with reg := [] }, processed := [] }) p).db := by
    rw [hstep]
    exact update_proxy_mem _ _ ⟨p, hp1, rfl⟩
  have hp3 : { p with status := "pending" } ∈ (restart_all_proxies db net).1.db := by
    rw [hAeq, hfold]
    refine recFold_db_preserve l2 _ _ hp2 ?_
    intro q hq heq
    exact hne12.2 q hq heq.symm
  refine ⟨⟨{ p with status := "pending" }, hp3, rfl, rfl⟩, ?_, ?_, ?_⟩
  · -- no forwarder registered under p.id
    cases hreg : regHas (restart_all_proxies db net).1.net.reg p.id with
    | false => rfl
    | true =>
      rw [hAeq] at hreg
      cases recFold_reg_imp (get_active_proxies db) _ p.id hreg with
      | inl h0 => simp [regHas] at h0
      | inr h0 =>
        obtain ⟨q, hq, hqid, hqrem⟩ := h0
        have : q = p := List.inj_on_of_nodup_map hid (hsubsetA q hq) hmem hqid.symm
        rw [this, hrem] at hqrem
        exact absurd rfl hqrem
  · -- the subdomain is excluded from the routes
    intro hcon
    rw [List.mem_map] at hcon
    obtain ⟨rt, hrt, hrts⟩ := hcon
    have hroutes : (restart_all_proxies db net).2
        = generate_traefik_config
          ((restart_all_proxies db net).1.processed.filter
            (fun x => x.status == "active")) := rfl
    rw [hroutes, generate_traefik_config, List.mem_map] at hrt
    obtain ⟨q, hq, hqrt⟩ := hrt
    rw [List.mem_filter] at hq
    obtain ⟨hq1, _⟩ := hq
    rw [List.mem_filter] at hq1
    obtain ⟨hqproc, hqstat⟩ := hq1
    rw [hAeq] at hqproc
    cases recFold_processed_imp (get_active_proxies db) _ q hqproc with
    | inl h0 => cases h0
    | inr h0 =>
      obtain ⟨w, hw, _, hqws, hwpend⟩ := h0
      have hsubeq : q.subdomain = p.subdomain := by
        rw [← hrts, ← hqrt]
      have hwp : w = p := by
        refine List.inj_on_of_nodup_map hsubs (hsubsetA w hw) hmem ?_
        show w.subdomain = p.subdomain
        rw [← hqws, hsubeq]
      rw [hwp] at hwpend
      have hqpend := hwpend hrem
      rw [beq_iff_eq] at hqstat
      rw [hqpend] at hqstat
      exact absurd hqstat (by decide)
  · -- every route comes from a processed entry that ended active
    intro rt hrt
    have hroutes : (restart_all_proxies db net).2
        = generate_traefik_config
          ((restart_all_proxies db net).1.processed.filter
            (fun x => x.status == "active")) := rfl
    rw [hroutes, generate_traefik_config, List.mem_map] at hrt
    obtain ⟨q, hq, hqrt⟩ := hrt
    rw [List.mem_filter] at hq
    obtain ⟨hq1, hqact⟩ := hq
    rw [List.mem_filter] at hq1
    obtain ⟨hqproc, hqstat⟩ := hq1
    rw [beq_iff_eq] at hqstat
    exact ⟨q, hqproc, hqstat, hqact, hqrt.symm⟩

/-- An active entry without an upstream endpoint (as after a provider
failure left it never bound). -/
def pendingEntry : ProxyKey :=
  { baseEntry with
    id := 5
    subdomain := "proxy5"
    port := 9005
    remote_http := none
    status := "active" }

theorem startup_recovery_pending_witness :
    (∃ q ∈ (restart_all_proxies [pendingEntry, entryTwo] { reg := [], ext := [] }).1.db,
      q.id = 5 ∧ q.status = "pending")
    ∧ regHas (restart_all_proxies [pendingEntry, entryTwo]
        { reg := [], ext := [] }).1.net.reg 5 = false
    ∧ "proxy5" ∉ ((restart_all_proxies [pendingEntry, entryTwo]
        { reg := [], ext := [] }).2).map Prod.fst
    ∧ (∀ rt ∈ (restart_all_proxies [pendingEntry, entryTwo] { reg := [], ext := [] }).2,
        ∃ q ∈ (restart_all_proxies [pendingEntry, entryTwo]
            { reg := [], ext := [] }).1.processed,
          q.status = "active" ∧ q.is_active = true ∧ rt = (q.subdomain, q.port)) := by
  have h := startup_recovery_pending [pendingEntry, entryTwo] { reg := [], ext := [] }
    pendingEntry (by decide) rfl rfl (by decide) (by decide)
  exact h

end KiotProxyManager
